import Mathlib

/-!
Verification development for the netbattleship core: a shallow embedding of
the ship catalog, sparse board, placement validation, wire codec, and the
flow-engine operations, with theorems checking the documented properties.

Machine integers are modelled as Nat with explicit wrap-around (mod 256 for
u8 arithmetic), matching release-mode Rust semantics. Stateful operations
become explicit state passing: socket reads consume a list of incoming
messages and socket writes accumulate a list of sent messages. Fallible
operations return an explicit result type mirroring the Rust Result.
-/

/-- The Ship enum from ship.rs: five ship kinds plus the non-ship markers
None (empty water, default), Miss and Hit. -/
inductive Ship where
  | None
  | Miss
  | Hit
  | Carrier
  | Battleship
  | Cruiser
  | Submarine
  | Destroyer
deriving DecidableEq, Repr, Fintype

/-- The fixed catalog order returned by the static iterator in ship.rs. -/
def shipOrder : List Ship :=
  [Ship.Carrier, Ship.Battleship, Ship.Cruiser, Ship.Submarine, Ship.Destroyer]

/-- Ship length from ship.rs: Carrier 5, Battleship 4, Cruiser 3, Submarine 3,
Destroyer 2, and 0 for the non-ship markers. -/
def Ship.len : Ship → Nat
  | Ship.Carrier => 5
  | Ship.Battleship => 4
  | Ship.Cruiser => 3
  | Ship.Submarine => 3
  | Ship.Destroyer => 2
  | _ => 0

/-- The is_empty query from ship.rs: length equals zero. -/
def Ship.is_empty (s : Ship) : Bool := s.len == 0

/-- Grid coordinate, a pair of u8 values modelled as Nat. -/
abbrev Coord := Nat × Nat

/-- Strict lexicographic order on coordinates, matching the Ord instance of
the Rust tuple key type used by the BTreeMap. -/
def coordLt (a b : Coord) : Bool :=
  a.1 < b.1 || (a.1 == b.1 && a.2 < b.2)

/-- A board is the BTreeMap from board.rs, modelled as a key-sorted
association list; absence of a key means empty water. -/
abbrev Board := List (Coord × Ship)

/-- Lookup in the board map. -/
def Board.get : Board → Coord → Option Ship
  | [], _ => none
  | (k, s) :: t, c => if c = k then some s else Board.get t c

/-- Insertion into the board map, keeping keys sorted; an existing entry at
the same key is overwritten, as BTreeMap insert does. -/
def Board.insert : Board → Coord → Ship → Board
  | [], k, s => [(k, s)]
  | (k2, s2) :: t, k, s =>
    if k = k2 then (k, s) :: t
    else if coordLt k k2 then (k, s) :: (k2, s2) :: t
    else (k2, s2) :: Board.insert t k s

/-- Insertion that also returns the previous value at the key, mirroring the
return value of BTreeMap insert used by the receive path. -/
def Board.insertGet : Board → Coord → Ship → Board × Option Ship
  | [], k, s => ([(k, s)], none)
  | (k2, s2) :: t, k, s =>
    if k = k2 then ((k, s) :: t, some s2)
    else if coordLt k k2 then ((k, s) :: (k2, s2) :: t, none)
    else
      let r := Board.insertGet t k s
      ((k2, s2) :: r.1, r.2)

/-- The ship-presence query from board.rs: some entry carries this marker. -/
def Board.contains (b : Board) (s : Ship) : Bool :=
  b.any (fun e => e.2 == s)

/-- Sortedness of the association list, the representation invariant that
the BTreeMap maintains for us. -/
def Board.sorted : Board → Bool
  | [] => true
  | [_] => true
  | a :: b :: t => coordLt a.1 b.1 && Board.sorted (b :: t)

/-- Wrapping u8 subtraction, for operands below 256. -/
def u8wsub (a b : Nat) : Nat := (a + 256 - b) % 256

/-- Wrapping u8 increment. -/
def u8succ (a : Nat) : Nat := (a + 1) % 256

/-- One cursor step of the placement loops in ship.rs: advance the row if
vertical, the column otherwise, with u8 wrap-around. -/
def advance (c : Coord) (v : Bool) : Coord :=
  if v then (c.1, u8succ c.2) else (u8succ c.1, c.2)

/-- The n cursor positions visited by the placement loops of ship.rs. -/
def spanCells (c : Coord) (v : Bool) : Nat → List Coord
  | 0 => []
  | n + 1 => c :: spanCells (advance c v) v n

/-- Ship placement from ship.rs. The travel-axis bound check computes
10 - pos with wrapping u8 subtraction, exactly as the source does; then a
first loop scans the span for occupied cells without modifying the board,
and only after the whole scan does a second loop insert the span cells. -/
def Ship.place (s : Ship) (b : Board) (pos : Coord) (v : Bool) : Board × Bool :=
  if (!v && decide (s.len > u8wsub 10 pos.1)) || (v && decide (s.len > u8wsub 10 pos.2)) then
    (b, false)
  else if (spanCells pos v s.len).any (fun c => (Board.get b c).isSome) then
    (b, false)
  else
    ((spanCells pos v s.len).foldl (fun acc c => Board.insert acc c s) b, true)

/-- Modelled from the spec: the Phase enum, whose declaring module is not
among the provided sources (flow2.rs, flow.rs and the front ends only use
it): Connecting, Placing(ShipKind), Playing, Done(won). -/
inductive Phase where
  | Connecting
  | Placing (s : Ship)
  | Playing
  | Done (won : Bool)
deriving DecidableEq, Repr

/-- The wire message catalog from net.rs. The Hello payload is a u64 and the
Fire payloads are u8 values, modelled as Nat with a wellformedness bound. -/
inductive Msg where
  | Hello (v : Nat)
  | NotFinished
  | Finished
  | DidHit (b : Bool)
  | Fire (x : Nat) (y : Nat)
  | Sunk (s : Ship)
deriving DecidableEq, Repr

/-- The GameFlowError enum from flow2.rs. The Network case also stands for a
read on an exhausted incoming stream, which in the source blocks or panics. -/
inductive GFError where
  | Network
  | BadMessage (m : Msg)
  | InvalidPlacement
  | OutOfOrder
  | MalformedMessage
deriving DecidableEq, Repr

/-- Result type mirroring the Rust Result of the flow operations. -/
inductive GFResult (α : Type) where
  | ok (v : α)
  | err (e : GFError)
deriving DecidableEq, Repr

/-- The Game struct: two boards indexed 0 and 1, the turn flag, the
which-index-is-mine flag, and (in the flow2 revision) the phase. -/
structure Game where
  board0 : Board
  board1 : Board
  turn : Bool
  you : Bool
  phase : Phase
deriving DecidableEq, Repr

/-- Array indexing board[usize::from(i)]: false selects index 0. -/
def Game.boardIdx (g : Game) (i : Bool) : Board :=
  if i then g.board1 else g.board0

/-- Write back one of the two boards. -/
def Game.setBoardIdx (g : Game) (i : Bool) (b : Board) : Game :=
  if i then { g with board1 := b } else { g with board0 := b }

/-- The my_turn accessor from flow2.rs: turn equals you. -/
def my_turn (g : Game) : Bool := g.turn == g.you

/-- The TurnResults struct from flow2.rs. -/
structure TurnResults where
  hit : Option Ship
  sunk : Option Ship
  won : Bool
deriving DecidableEq, Repr

/-- Outcome of a flow2 exchange step: the state after, the messages left on
the incoming stream, the messages written to the socket, and the result. -/
structure StepResult where
  state : Game
  remaining : List Msg
  sent : List Msg
  result : GFResult TurnResults
deriving DecidableEq, Repr

/-- Outcome of a place_ship call: state after, messages sent, result. -/
structure PlaceResult where
  state : Game
  sent : List Msg
  result : GFResult Unit
deriving DecidableEq, Repr

/-- The negated matches pattern from the receive paths: the marker is a real
ship kind, not Hit, None or Miss. -/
def isShipKind (s : Ship) : Bool :=
  !(s == Ship.Hit || s == Ship.None || s == Ship.Miss)

/-- The phase computed by place_ship in flow2.rs after a successful
placement of kind b: the catalog iterator is skipped while the kind differs
from b, mapped to Placing and its next element taken, with Playing as the
fallback. Note skip_while stops at b itself, so the head is b again. -/
def placingSuccessor (b : Ship) : Phase :=
  match (shipOrder.dropWhile (fun a => a != b)).head? with
  | some v => Phase.Placing v
  | none => Phase.Playing

/-- place_ship from flow2.rs: requires phase Placing of the same kind, else
OutOfOrder; on a successful board placement recomputes the phase and, when
the new phase is Playing, sends Finished; a failed placement is
InvalidPlacement. -/
def GameFlow.place_ship (g : Game) (ship : Ship) (pos : Coord) (v : Bool) : PlaceResult :=
  match g.phase with
  | Phase.Placing s =>
    if s = ship then
      let pr := Ship.place ship (g.boardIdx g.you) pos v
      if pr.2 then
        let ph := placingSuccessor s
        { state := { g.setBoardIdx g.you pr.1 with phase := ph },
          sent := if ph = Phase.Playing then [Msg.Finished] else [],
          result := GFResult.ok () }
      else
        { state := g.setBoardIdx g.you pr.1, sent := [],
          result := GFResult.err GFError.InvalidPlacement }
    else
      { state := g, sent := [], result := GFResult.err GFError.OutOfOrder }
  | _ => { state := g, sent := [], result := GFResult.err GFError.OutOfOrder }

/-- fire from flow2.rs: requires phase Playing and my_turn; sends Fire, then
expects DidHit, Sunk, and Finished or NotFinished, failing BadMessage on any
other variant. The game state is never modified. -/
def GameFlow.fire (g : Game) (pos : Coord) (input : List Msg) : StepResult :=
  if g.phase ≠ Phase.Playing ∨ my_turn g = false then
    { state := g, remaining := input, sent := [],
      result := GFResult.err GFError.OutOfOrder }
  else
    match input with
    | Msg.DidHit b :: rest =>
      (match rest with
      | Msg.Sunk s :: rest2 =>
        let sunk := if s = Ship.None then none else some s
        (match rest2 with
        | Msg.Finished :: rest3 =>
          { state := g, remaining := rest3, sent := [Msg.Fire pos.1 pos.2],
            result := GFResult.ok
              { hit := if b then some Ship.Hit else none, sunk := sunk, won := true } }
        | Msg.NotFinished :: rest3 =>
          { state := g, remaining := rest3, sent := [Msg.Fire pos.1 pos.2],
            result := GFResult.ok
              { hit := if b then some Ship.Hit else none, sunk := sunk, won := false } }
        | m :: rest3 =>
          { state := g, remaining := rest3, sent := [Msg.Fire pos.1 pos.2],
            result := GFResult.err (GFError.BadMessage m) }
        | [] =>
          { state := g, remaining := [], sent := [Msg.Fire pos.1 pos.2],
            result := GFResult.err GFError.Network })
      | m :: rest2 =>
        { state := g, remaining := rest2, sent := [Msg.Fire pos.1 pos.2],
          result := GFResult.err (GFError.BadMessage m) }
      | [] =>
        { state := g, remaining := [], sent := [Msg.Fire pos.1 pos.2],
          result := GFResult.err GFError.Network })
    | m :: rest =>
      { state := g, remaining := rest, sent := [Msg.Fire pos.1 pos.2],
        result := GFResult.err (GFError.BadMessage m) }
    | [] =>
      { state := g, remaining := [], sent := [Msg.Fire pos.1 pos.2],
        result := GFResult.err GFError.Network }

/-- receive from flow2.rs: requires phase Playing and not my_turn; reads a
Fire message, overwrites the fleet board at the aim with Hit capturing the
previous marker, answers DidHit when the previous marker was a ship kind,
then Sunk when that kind no longer appears on the updated board, then
Finished when every remaining entry of the updated board is a non-ship
marker, else NotFinished. Neither the turn flag nor the phase is changed. -/
def receiveCore (g : Game) (x y : Nat) (rest : List Msg) : StepResult :=
  let ig := Board.insertGet (g.boardIdx g.you) (x, y) Ship.Hit
  let hit := ig.2.filter isShipKind
  let sunk := hit.filter (fun h2 => !(Board.contains ig.1 h2))
  let won := ig.1.all (fun e => Ship.is_empty e.2)
  { state := g.setBoardIdx g.you ig.1, remaining := rest,
    sent := [Msg.DidHit hit.isSome, Msg.Sunk (sunk.getD Ship.None),
             if won then Msg.Finished else Msg.NotFinished],
    result := GFResult.ok { hit := hit, sunk := sunk, won := won } }

/-- Dispatch of receive from flow2.rs: the precondition check and the match
on the incoming Fire message; the body of the exchange is receiveCore. -/
def GameFlow.receive (g : Game) (input : List Msg) : StepResult :=
  if g.phase ≠ Phase.Playing ∨ my_turn g = true then
    { state := g, remaining := input, sent := [],
      result := GFResult.err GFError.OutOfOrder }
  else
    match input with
    | Msg.Fire x y :: rest => receiveCore g x y rest
    | m :: rest =>
      { state := g, remaining := rest, sent := [],
        result := GFResult.err (GFError.BadMessage m) }
    | [] =>
      { state := g, remaining := [], sent := [],
        result := GFResult.err GFError.Network }

/-- The version constant sent by the handshake in flow.rs: Hello(0). -/
def localVersion : Nat := 0

/-- The version check performed by the handshake in flow.rs after the
transport opens: the reply must equal the Hello message that was sent; the
source asserts the equality and aborts the session on failure. -/
def handshakeCheck (resp : Msg) : Bool := Msg.Hello localVersion == resp

/-- GameFlow::new from flow2.rs: opens the transport and immediately builds
the initial state with you = serve and phase Placing of the first catalog
kind. No message is read from or written to the socket: the returned triple
is the state, the untouched incoming stream, and the empty sent list. -/
def GameFlow.new (serve : Bool) (input : List Msg) : Game × List Msg × List Msg :=
  ({ board0 := [], board1 := [], turn := false, you := serve,
     phase := Phase.Placing (shipOrder.head?.getD Ship.None) }, input, [])

/-- One my-turn iteration body of game_loop in flow.rs, after the target is
chosen: send Fire, then on DidHit true or false insert Hit or Miss on the
opponent-knowledge board, accept any Sunk message, and on NotFinished toggle
the turn flag while Finished ends the loop without toggling. Any unexpected
variant panics in the source, modelled as none. -/
def gameLoopFireStep (g : Game) (coords : Coord) (input : List Msg) :
    Option (Game × List Msg × List Msg × Bool) :=
  match input with
  | Msg.DidHit b :: rest =>
    let g2 := g.setBoardIdx (!g.you)
      (Board.insert (g.boardIdx (!g.you)) coords (if b then Ship.Hit else Ship.Miss))
    (match rest with
    | Msg.Sunk _ :: rest2 =>
      (match rest2 with
      | Msg.Finished :: rest3 =>
        some (g2, rest3, [Msg.Fire coords.1 coords.2], true)
      | Msg.NotFinished :: rest3 =>
        some ({ g2 with turn := !g2.turn }, rest3, [Msg.Fire coords.1 coords.2], false)
      | _ => none)
    | _ => none)
  | _ => none

/-- A byte stream: each element is one byte value below 256. -/
abbrev Bytes := List Nat

/-- CBOR encoding of an unsigned integer (major type 0), as the serde_cbor
serializer emits it: the value itself below 24, else a 1, 2, 4 or 8 byte
big-endian payload after the width marker 24, 25, 26 or 27. -/
def cborNat (n : Nat) : Bytes :=
  if n < 24 then [n]
  else if n < 256 then [24, n]
  else if n < 65536 then [25, n / 256, n % 256]
  else if n < 4294967296 then
    [26, n / 16777216, n / 65536 % 256, n / 256 % 256, n % 256]
  else
    [27, n / 72057594037927936 % 256, n / 281474976710656 % 256,
     n / 1099511627776 % 256, n / 4294967296 % 256, n / 16777216 % 256,
     n / 65536 % 256, n / 256 % 256, n % 256]

/-- CBOR encoding of a short text string (major type 3, length below 24):
header byte 96 + length, then the raw bytes. All variant names fit. -/
def cborText (s : Bytes) : Bytes := (96 + s.length) :: s

/-- ASCII bytes of the variant name Hello. -/
def nmHello : Bytes := [72, 101, 108, 108, 111]

/-- ASCII bytes of the variant name NotFinished. -/
def nmNotFinished : Bytes := [78, 111, 116, 70, 105, 110, 105, 115, 104, 101, 100]

/-- ASCII bytes of the variant name Finished. -/
def nmFinished : Bytes := [70, 105, 110, 105, 115, 104, 101, 100]

/-- ASCII bytes of the variant name DidHit. -/
def nmDidHit : Bytes := [68, 105, 100, 72, 105, 116]

/-- ASCII bytes of the variant name Fire. -/
def nmFire : Bytes := [70, 105, 114, 101]

/-- ASCII bytes of the variant name Sunk. -/
def nmSunk : Bytes := [83, 117, 110, 107]

/-- ASCII bytes of the name of each Ship variant, as serde serializes the
unit variants of the Ship enum. -/
def shipName : Ship → Bytes
  | Ship.None => [78, 111, 110, 101]
  | Ship.Miss => [77, 105, 115, 115]
  | Ship.Hit => [72, 105, 116]
  | Ship.Carrier => [67, 97, 114, 114, 105, 101, 114]
  | Ship.Battleship => [66, 97, 116, 116, 108, 101, 115, 104, 105, 112]
  | Ship.Cruiser => [67, 114, 117, 105, 115, 101, 114]
  | Ship.Submarine => [83, 117, 98, 109, 97, 114, 105, 110, 101]
  | Ship.Destroyer => [68, 101, 115, 116, 114, 111, 121, 101, 114]

/-- The serde_cbor encoding of one Msg value: a unit variant becomes the
text string of its name; a newtype or tuple variant becomes a one-entry map
(header byte 161) from the name to the payload, a tuple payload being a
two-element array (header byte 130). Booleans are 244 and 245. -/
def encodeMsg : Msg → Bytes
  | Msg.Hello v => 161 :: (cborText nmHello ++ cborNat v)
  | Msg.NotFinished => cborText nmNotFinished
  | Msg.Finished => cborText nmFinished
  | Msg.DidHit b => 161 :: (cborText nmDidHit ++ [if b then 245 else 244])
  | Msg.Fire x y => 161 :: (cborText nmFire ++ 130 :: (cborNat x ++ cborNat y))
  | Msg.Sunk s => 161 :: (cborText nmSunk ++ cborText (shipName s))

/-- write_to from net.rs: the encoded record followed by exactly one
newline byte as the frame terminator. -/
def writeTo (m : Msg) : Bytes := encodeMsg m ++ [10]

/-- CBOR decoding of an unsigned integer, accepting the forms the encoder
emits; returns the value and the rest of the bytes. -/
def decNat : Bytes → Option (Nat × Bytes)
  | [] => none
  | b :: r =>
    if b < 24 then some (b, r)
    else if b = 24 then
      match r with
      | v :: r2 => some (v, r2)
      | [] => none
    else if b = 25 then
      match r with
      | a :: c :: r2 => some (a * 256 + c, r2)
      | _ => none
    else if b = 26 then
      match r with
      | a :: c :: d :: e :: r2 => some (((a * 256 + c) * 256 + d) * 256 + e, r2)
      | _ => none
    else if b = 27 then
      match r with
      | a :: c :: d :: e :: f :: a2 :: c2 :: d2 :: r2 =>
        some (((((((a * 256 + c) * 256 + d) * 256 + e) * 256 + f) * 256
          + a2) * 256 + c2) * 256 + d2, r2)
      | _ => none
    else none

/-- CBOR decoding of a short text string: header byte 96 + length, then
that many bytes taken from the stream. -/
def decText : Bytes → Option (Bytes × Bytes)
  | [] => none
  | b :: r =>
    if 96 ≤ b ∧ b < 120 then some (r.take (b - 96), r.drop (b - 96))
    else none

/-- Recover a Ship value from the bytes of its variant name. -/
def shipOfName (s : Bytes) : Option Ship :=
  if s = [78, 111, 110, 101] then some Ship.None
  else if s = [77, 105, 115, 115] then some Ship.Miss
  else if s = [72, 105, 116] then some Ship.Hit
  else if s = [67, 97, 114, 114, 105, 101, 114] then some Ship.Carrier
  else if s = [66, 97, 116, 116, 108, 101, 115, 104, 105, 112] then some Ship.Battleship
  else if s = [67, 114, 117, 105, 115, 101, 114] then some Ship.Cruiser
  else if s = [83, 117, 98, 109, 97, 114, 105, 110, 101] then some Ship.Submarine
  else if s = [68, 101, 115, 116, 114, 111, 121, 101, 114] then some Ship.Destroyer
  else none

/-- Decoding of one Msg record, mirroring the serde deserializer on the
shapes the encoder emits: a bare text string is a unit variant, a one-entry
map holds a payload variant keyed by its name. Returns the message and any
trailing bytes; malformed input is none. -/
def decodeMsg : Bytes → Option (Msg × Bytes)
  | [] => none
  | b :: r =>
    if b = 161 then
      match decText r with
      | none => none
      | some (key, r2) =>
        if key = nmHello then
          match decNat r2 with
          | some (v, r3) => some (Msg.Hello v, r3)
          | none => none
        else if key = nmDidHit then
          match r2 with
          | 245 :: r3 => some (Msg.DidHit true, r3)
          | 244 :: r3 => some (Msg.DidHit false, r3)
          | _ => none
        else if key = nmFire then
          match r2 with
          | 130 :: r3 =>
            (match decNat r3 with
            | some (x, r4) =>
              if x < 256 then
                match decNat r4 with
                | some (y, r5) => if y < 256 then some (Msg.Fire x y, r5) else none
                | none => none
              else none
            | none => none)
          | _ => none
        else if key = nmSunk then
          match decText r2 with
          | some (sn, r3) =>
            (match shipOfName sn with
            | some s => some (Msg.Sunk s, r3)
            | none => none)
          | none => none
        else none
    else
      match decText (b :: r) with
      | some (key, r2) =>
        if key = nmFinished then some (Msg.Finished, r2)
        else if key = nmNotFinished then some (Msg.NotFinished, r2)
        else none
      | none => none

/-- read_from from net.rs: take bytes until the first newline, then decode;
the decode must consume the collected bytes exactly, as from_slice rejects
trailing data. -/
def readFrom (stream : Bytes) : Option Msg :=
  match decodeMsg (stream.takeWhile (fun b => b != 10)) with
  | some (m, []) => some m
  | _ => none

/-- Wellformedness of a message: its integer payloads fit the Rust field
widths (u64 for Hello, u8 for the Fire coordinates). -/
def msgWF : Msg → Bool
  | Msg.Hello v => v < 18446744073709551616
  | Msg.Fire x y => x < 256 && y < 256
  | _ => true

/-- A fresh server-side state as flow2 construction yields it: empty boards,
turn false, you true, phase Placing Carrier. -/
def gFresh : Game :=
  { board0 := [], board1 := [], turn := false, you := true,
    phase := Phase.Placing Ship.Carrier }

/-- A client-side state in the Playing phase where it is the local turn:
turn false and you false agree. -/
def gPlayingClient : Game :=
  { board0 := [], board1 := [], turn := false, you := false,
    phase := Phase.Playing }

/-- A client-side Playing state on the receiving end (turn true, you false)
whose fleet board holds an intact two-cell Destroyer. -/
def gReceiver : Game :=
  { board0 := [((0, 0), Ship.Destroyer), ((1, 0), Ship.Destroyer)],
    board1 := [], turn := true, you := false, phase := Phase.Playing }

/-- Like gReceiver but with only the last Destroyer cell still intact, so
that one more incoming hit destroys the whole fleet. -/
def gReceiverLast : Game :=
  { board0 := [((0, 0), Ship.Hit), ((1, 0), Ship.Destroyer)],
    board1 := [], turn := true, you := false, phase := Phase.Playing }

/-- The won flag carried by a successful exchange result; an error result
reports no win. -/
def resultWon : GFResult TurnResults → Bool
  | GFResult.ok tr => tr.won
  | GFResult.err _ => false

/-! Helper lemmas about the board representation. -/

theorem coordLt_asymm {a b : Coord} (h : coordLt a b = true) : a ≠ b := by
  intro he
  subst he
  simp [coordLt] at h

theorem coordLt_trans {a b c : Coord} (h1 : coordLt a b = true)
    (h2 : coordLt b c = true) : coordLt a c = true := by
  simp [coordLt] at h1 h2 ⊢
  omega

theorem Board.get_insert_self (b : Board) (k : Coord) (s : Ship) :
    Board.get (Board.insert b k s) k = some s := by
  induction b with
  | nil => simp [Board.insert, Board.get]
  | cons hd t ih =>
    obtain ⟨k2, s2⟩ := hd
    simp only [Board.insert]
    split
    · simp [Board.get]
    · split
      · simp [Board.get]
      · next he _ =>
        rw [Board.get, if_neg he]
        exact ih

theorem Board.get_insert_ne (b : Board) (k k2 : Coord) (s : Ship)
    (h : k2 ≠ k) : Board.get (Board.insert b k s) k2 = Board.get b k2 := by
  induction b with
  | nil => simp [Board.insert, Board.get, h]
  | cons hd t ih =>
    obtain ⟨k3, s3⟩ := hd
    simp only [Board.insert]
    split
    · next he =>
      subst he
      rw [Board.get, if_neg h, Board.get, if_neg h]
    · split
      · rw [Board.get, if_neg h]
      · rw [Board.get, Board.get]
        split
        · rfl
        · exact ih

theorem Board.insertGet_fst (b : Board) (k : Coord) (s : Ship) :
    (Board.insertGet b k s).1 = Board.insert b k s := by
  induction b with
  | nil => simp [Board.insertGet, Board.insert]
  | cons hd t ih =>
    obtain ⟨k2, s2⟩ := hd
    simp only [Board.insertGet, Board.insert]
    split
    · rfl
    · split
      · rfl
      · simpa using ih

theorem Board.sorted_cons {k2 : Coord} {s2 : Ship} {t : Board}
    (h : Board.sorted ((k2, s2) :: t) = true) :
    Board.sorted t = true ∧ ∀ e ∈ t, coordLt k2 e.1 = true := by
  induction t generalizing k2 s2 with
  | nil => simp [Board.sorted]
  | cons hd t2 ih =>
    obtain ⟨k3, s3⟩ := hd
    rw [Board.sorted] at h
    have h1 : coordLt k2 k3 = true := by
      cases hlt : coordLt k2 k3 <;> simp [hlt] at h ⊢
    have h2 : Board.sorted ((k3, s3) :: t2) = true := by
      cases hs : Board.sorted ((k3, s3) :: t2) <;> simp [hs] at h ⊢
    refine ⟨h2, ?_⟩
    intro e he
    rcases List.mem_cons.mp he with he1 | he2
    · subst he1; exact h1
    · exact coordLt_trans h1 ((ih h2).2 e he2)

theorem Board.get_none_of_lt_all (t : Board) (k : Coord)
    (h : ∀ e ∈ t, coordLt k e.1 = true) : Board.get t k = none := by
  induction t with
  | nil => rfl
  | cons hd t2 ih =>
    obtain ⟨k3, s3⟩ := hd
    rw [Board.get]
    rw [if_neg (coordLt_asymm (h (k3, s3) (List.mem_cons_self _ _)))]
    exact ih fun e he => h e (List.mem_cons_of_mem _ he)

theorem Board.insertGet_snd (b : Board) (k : Coord) (s : Ship)
    (h : Board.sorted b = true) :
    (Board.insertGet b k s).2 = Board.get b k := by
  induction b with
  | nil => simp [Board.insertGet, Board.get]
  | cons hd t ih =>
    obtain ⟨k2, s2⟩ := hd
    simp only [Board.insertGet, Board.get]
    split
    · rfl
    · split
      · next hlt =>
        exact (Board.get_none_of_lt_all t k
          fun e hm => coordLt_trans hlt ((Board.sorted_cons h).2 e hm)).symm
      · exact ih (Board.sorted_cons h).1

/-! Claim C6: placement atomicity. -/

/-- C6: for every ship kind, board, origin and orientation, whenever place
returns failure the board is left unchanged; both failure paths (bound
check and occupancy scan) return before any cell is committed. -/
theorem place_failure_leaves_board_unchanged (s : Ship) (b : Board)
    (pos : Coord) (v : Bool) (h : (Ship.place s b pos v).2 = false) :
    (Ship.place s b pos v).1 = b := by
  revert h
  unfold Ship.place
  split
  · intro _; rfl
  · split
    · intro _; rfl
    · intro h; simp at h

/-- Witness for C6 at a concrete failing placement: a Carrier at column 9
horizontally fails the bound check and the board stays empty. -/
theorem place_failure_leaves_board_unchanged_witness :
    (Ship.place Ship.Carrier [] (9, 0) false).2 = false
    ∧ (Ship.place Ship.Carrier [] (9, 0) false).1 = [] :=
  ⟨by decide, place_failure_leaves_board_unchanged Ship.Carrier [] (9, 0) false (by decide)⟩

/-! Claim C7: the travel-axis bound check. -/

/-- C7 counterexample: with origin column 11 the u8 subtraction 10 - 11
wraps to 255, the bound check erroneously passes, and placing a Destroyer
horizontally on an empty board succeeds although 11 + 2 exceeds 10. -/
theorem place_succeeds_out_of_bounds :
    (Ship.place Ship.Destroyer [] (11, 0) false).2 = true
    ∧ 10 < 11 + Ship.len Ship.Destroyer := by decide

/-- C7 amended: for origins whose travel-axis coordinate is at most 10 the
wrapping subtraction cannot underflow, and place succeeds only if that
coordinate plus the kind length stays within the bound 10. -/
theorem place_bound_check_in_range (s : Ship) (b : Board) (pos : Coord)
    (v : Bool) (hx : (if v then pos.2 else pos.1) ≤ 10)
    (h : (Ship.place s b pos v).2 = true) :
    (if v then pos.2 else pos.1) + s.len ≤ 10 := by
  revert h
  unfold Ship.place
  split
  · intro h; simp at h
  · next hc =>
    intro _
    cases v with
    | false =>
      simp only [Bool.not_false, Bool.true_and, Bool.false_and,
        Bool.or_false, decide_eq_true_eq, u8wsub] at hc
      simp at hx ⊢
      omega
    | true =>
      simp only [Bool.not_true, Bool.false_and, Bool.true_and,
        Bool.false_or, decide_eq_true_eq, u8wsub] at hc
      simp at hx ⊢
      omega

/-- Witness for C7 amended: a Destroyer at column 8 horizontally is placed
successfully and 8 + 2 is within the bound. -/
theorem place_bound_check_in_range_witness :
    (8 : Nat) ≤ 10 ∧ (Ship.place Ship.Destroyer [] (8, 0) false).2 = true
    ∧ 8 + Ship.len Ship.Destroyer ≤ 10 :=
  ⟨by decide, by decide,
    place_bound_check_in_range Ship.Destroyer [] (8, 0) false (by decide) (by decide)⟩

/-! Claim C8: out-of-order placement requests. -/

/-- C8: in phase Placing k, place_ship with any other kind returns
OutOfOrder and leaves the whole state, boards and phase included,
unchanged, for every coordinate and orientation. -/
theorem place_ship_wrong_kind_out_of_order (g : Game) (k ship : Ship)
    (pos : Coord) (v : Bool) (hph : g.phase = Phase.Placing k)
    (hne : ship ≠ k) :
    GameFlow.place_ship g ship pos v =
      { state := g, sent := [], result := GFResult.err GFError.OutOfOrder } := by
  unfold GameFlow.place_ship
  rw [hph]
  exact if_neg fun he => hne he.symm

/-- Witness for C8: a state placing the Carrier rejects a Destroyer request
at a perfectly valid coordinate. -/
theorem place_ship_wrong_kind_out_of_order_witness :
    gFresh.phase = Phase.Placing Ship.Carrier
    ∧ Ship.Destroyer ≠ Ship.Carrier
    ∧ GameFlow.place_ship gFresh Ship.Destroyer (0, 0) false
      = { state := gFresh, sent := [], result := GFResult.err GFError.OutOfOrder } :=
  ⟨rfl, by decide,
    place_ship_wrong_kind_out_of_order gFresh Ship.Carrier Ship.Destroyer (0, 0) false
      rfl (by decide)⟩

/-! Claim C1: phase advance on successful placement. -/

/-- C1: evaluating place_ship at the fresh state shows the defect: a
successful Carrier placement leaves the phase at Placing Carrier instead of
advancing to Placing Battleship, because the skip_while chain in flow2.rs
yields the current kind itself; the successor of the last kind is likewise
Placing Destroyer, so Playing is never reached through this expression. -/
theorem place_ship_does_not_advance_phase :
    (GameFlow.place_ship gFresh Ship.Carrier (0, 0) false).result = GFResult.ok ()
    ∧ (GameFlow.place_ship gFresh Ship.Carrier (0, 0) false).state.phase
      = Phase.Placing Ship.Carrier
    ∧ placingSuccessor Ship.Carrier = Phase.Placing Ship.Carrier
    ∧ placingSuccessor Ship.Destroyer = Phase.Placing Ship.Destroyer := by decide

/-! Claim C2: turn alternation after an exchange. -/

/-- C2: evaluating the flow2 exchanges at concrete inputs shows the defect:
a completed fire exchange answered NotFinished leaves the state, the turn
flag included, exactly as it was, and a completed receive exchange likewise
leaves the turn flag unchanged, so my_turn keeps its value on both sides. -/
theorem fire_receive_do_not_toggle_turn :
    (GameFlow.fire gPlayingClient (0, 0)
        [Msg.DidHit false, Msg.Sunk Ship.None, Msg.NotFinished]).state = gPlayingClient
    ∧ my_turn gPlayingClient = true
    ∧ my_turn ((GameFlow.fire gPlayingClient (0, 0)
        [Msg.DidHit false, Msg.Sunk Ship.None, Msg.NotFinished]).state) = true
    ∧ (GameFlow.fire gPlayingClient (0, 0)
        [Msg.DidHit false, Msg.Sunk Ship.None, Msg.NotFinished]).result
      = GFResult.ok { hit := none, sunk := none, won := false }
    ∧ (GameFlow.receive gReceiver [Msg.Fire 0 0]).state.turn = gReceiver.turn
    ∧ (GameFlow.receive gReceiver [Msg.Fire 0 0]).result
      = GFResult.ok { hit := some Ship.Destroyer, sunk := none, won := false } := by
  decide

/-! Helper lemmas about the wire codec. -/

theorem decNat_cborNat (n : Nat) (r : Bytes)
    (h : n < 18446744073709551616) :
    decNat (cborNat n ++ r) = some (n, r) := by
  unfold cborNat
  split
  · next h1 => simp [decNat, h1]
  · next h1 =>
    split
    · next h2 => simp [decNat]
    · next h2 =>
      split
      · next h3 =>
        simp [decNat]
        omega
      · next h3 =>
        split
        · next h4 =>
          simp [decNat]
          omega
        · next h4 =>
          simp [decNat]
          omega

theorem decText_cborText (s : Bytes) (r : Bytes) (h : s.length < 24) :
    decText (cborText s ++ r) = some (s, r) := by
  have h1 : 96 ≤ 96 + s.length ∧ 96 + s.length < 120 := by omega
  have h2 : 96 + s.length - 96 = s.length := by omega
  simp only [cborText, List.cons_append, decText, if_pos h1, h2]
  rw [List.take_left, List.drop_left]

theorem decodeMsg_encodeMsg (m : Msg) (h : msgWF m = true) :
    decodeMsg (encodeMsg m) = some (m, []) := by
  cases m with
  | Hello v =>
    have hv : v < 18446744073709551616 := by simpa [msgWF] using h
    have h1 : decText (cborText nmHello ++ cborNat v) = some (nmHello, cborNat v) :=
      decText_cborText _ _ (by decide)
    have h2 : decNat (cborNat v) = some (v, []) := by
      have := decNat_cborNat v [] hv
      simpa using this
    simp [encodeMsg, decodeMsg, h1, h2]
  | Fire x y =>
    have hx : x < 256 := by
      have := h
      simp [msgWF] at this
      omega
    have hy : y < 256 := by
      have := h
      simp [msgWF] at this
      omega
    have h1 : decText (cborText nmFire ++ (130 :: (cborNat x ++ cborNat y)))
        = some (nmFire, 130 :: (cborNat x ++ cborNat y)) :=
      decText_cborText _ _ (by decide)
    have h2 : decNat (cborNat x ++ cborNat y) = some (x, cborNat y) :=
      decNat_cborNat x (cborNat y) (by omega)
    have h3 : decNat (cborNat y) = some (y, []) := by
      have := decNat_cborNat y [] (by omega)
      simpa using this
    simp only [nmFire] at h1
    simp [encodeMsg, decodeMsg, h1, h2, h3, hx, hy, nmFire, nmHello, nmDidHit]
  | DidHit b => cases b <;> decide
  | Sunk s => cases s <;> decide
  | Finished => decide
  | NotFinished => decide

theorem takeWhile_frame (l : Bytes) (h : 10 ∉ l) :
    (l ++ [10]).takeWhile (fun b => b != 10) = l := by
  induction l with
  | nil => decide
  | cons a t ih =>
    have ha : a ≠ 10 := by
      intro he
      exact h (he ▸ List.mem_cons_self a t)
    have ht : 10 ∉ t := fun hm => h (List.mem_cons_of_mem a hm)
    simp only [List.cons_append, List.takeWhile_cons]
    rw [if_pos (by simpa using ha)]
    rw [ih ht]

/-! Claim C5: frame structure and codec round trip. -/

/-- C5 counterexample: the CBOR encoding of Hello 10 carries the u64
payload 10 as the literal byte 10, which is the newline frame terminator;
reading the written frame back truncates at that byte and fails to decode,
so the round trip loses the message. -/
theorem roundtrip_fails_on_hello_ten :
    10 ∈ encodeMsg (Msg.Hello 10)
    ∧ readFrom (writeTo (Msg.Hello 10)) = none := by decide

/-- C5 amended: every frame is the encoded record followed by exactly one
newline byte, and whenever the record itself contains no newline byte (the
integer payloads can produce one, as Hello 10 shows) reading the frame back
yields the original message. -/
theorem encode_decode_roundtrip (m : Msg) (h1 : msgWF m = true)
    (h2 : 10 ∉ encodeMsg m) :
    writeTo m = encodeMsg m ++ [10] ∧ readFrom (writeTo m) = some m := by
  refine ⟨rfl, ?_⟩
  unfold readFrom writeTo
  rw [takeWhile_frame _ h2, decodeMsg_encodeMsg m h1]

/-- Witness for C5 amended at the message Fire 3 4. -/
theorem encode_decode_roundtrip_witness :
    msgWF (Msg.Fire 3 4) = true
    ∧ 10 ∉ encodeMsg (Msg.Fire 3 4)
    ∧ (writeTo (Msg.Fire 3 4) = encodeMsg (Msg.Fire 3 4) ++ [10]
       ∧ readFrom (writeTo (Msg.Fire 3 4)) = some (Msg.Fire 3 4)) :=
  ⟨by decide, by decide, encode_decode_roundtrip (Msg.Fire 3 4) (by decide) (by decide)⟩

/-! Helper lemmas about the game state and the receive path. -/

theorem Game.boardIdx_setBoardIdx_self (g : Game) (i : Bool) (b : Board) :
    (g.setBoardIdx i b).boardIdx i = b := by
  cases i <;> simp [Game.setBoardIdx, Game.boardIdx]

theorem Game.boardIdx_setBoardIdx_ne (g : Game) (i j : Bool) (b : Board)
    (h : i ≠ j) : (g.setBoardIdx i b).boardIdx j = g.boardIdx j := by
  cases i <;> cases j <;> simp_all [Game.setBoardIdx, Game.boardIdx]

theorem Game.phase_setBoardIdx (g : Game) (i : Bool) (b : Board) :
    (g.setBoardIdx i b).phase = g.phase := by
  cases i <;> rfl

theorem Game.turn_setBoardIdx (g : Game) (i : Bool) (b : Board) :
    (g.setBoardIdx i b).turn = g.turn := by
  cases i <;> rfl

theorem Game.boardIdx_turnUpdate (g : Game) (t : Bool) (i : Bool) :
    ({ g with turn := t } : Game).boardIdx i = g.boardIdx i := by
  cases i <;> rfl

theorem Game.turn_turnUpdate (g : Game) (t : Bool) :
    ({ g with turn := t } : Game).turn = t := rfl

theorem is_empty_iff_not_kind : ∀ s : Ship, Ship.is_empty s = true ↔ s ∉ shipOrder := by
  decide

theorem isShipKind_iff_mem : ∀ s : Ship, isShipKind s = true ↔ s ∈ shipOrder := by
  decide

theorem filter_isShipKind_isSome (o : Option Ship) :
    ((o.filter isShipKind).isSome = true) ↔ ∃ s, o = some s ∧ s ∈ shipOrder := by
  cases o with
  | none => simp [Option.filter]
  | some s =>
    cases hk : isShipKind s with
    | false =>
      have : s ∉ shipOrder := fun hm => by
        have := (isShipKind_iff_mem s).2 hm
        rw [hk] at this
        exact Bool.false_ne_true this
      simp [Option.filter, hk, this]
    | true =>
      have : s ∈ shipOrder := (isShipKind_iff_mem s).1 hk
      simp [Option.filter, hk, this]

theorem receive_fire_eq (g : Game) (x y : Nat) (rest : List Msg)
    (hph : g.phase = Phase.Playing) (ht : my_turn g = false) :
    GameFlow.receive g (Msg.Fire x y :: rest) = receiveCore g x y rest := by
  unfold GameFlow.receive
  rw [if_neg (by simp [hph, ht])]

/-! Claim C3: win detection in receive. -/

/-- C3 counterexample: the final Destroyer cell is hit, the exchange
reports wonFlag true and sends Finished, yet the phase is left at Playing
rather than transitioning to Done. -/
theorem receive_win_leaves_phase_playing :
    (GameFlow.receive gReceiverLast [Msg.Fire 1 0]).result
      = GFResult.ok { hit := some Ship.Destroyer, sunk := some Ship.Destroyer, won := true }
    ∧ (GameFlow.receive gReceiverLast [Msg.Fire 1 0]).sent
      = [Msg.DidHit true, Msg.Sunk Ship.Destroyer, Msg.Finished]
    ∧ (GameFlow.receive gReceiverLast [Msg.Fire 1 0]).state.phase = Phase.Playing
    ∧ ∀ w : Bool, Phase.Playing ≠ Phase.Done w := by decide

/-- C3 amended: receive reports wonFlag true, and sends Finished rather
than NotFinished, exactly when after the incoming shot is marked no stored
entry of the fleet board carries a ship-kind marker; the phase, however, is
left unchanged by receive itself. -/
theorem receive_win_iff_no_ship_cells (g : Game) (x y : Nat) (rest : List Msg)
    (hph : g.phase = Phase.Playing) (ht : my_turn g = false) :
    (resultWon (GameFlow.receive g (Msg.Fire x y :: rest)).result = true
      ↔ ∀ p ∈ (GameFlow.receive g (Msg.Fire x y :: rest)).state.boardIdx g.you,
          p.2 ∉ shipOrder)
    ∧ (Msg.Finished ∈ (GameFlow.receive g (Msg.Fire x y :: rest)).sent
      ↔ resultWon (GameFlow.receive g (Msg.Fire x y :: rest)).result = true)
    ∧ (Msg.NotFinished ∈ (GameFlow.receive g (Msg.Fire x y :: rest)).sent
      ↔ resultWon (GameFlow.receive g (Msg.Fire x y :: rest)).result = false)
    ∧ (GameFlow.receive g (Msg.Fire x y :: rest)).state.phase = g.phase := by
  rw [receive_fire_eq g x y rest hph ht]
  unfold receiveCore
  simp only [resultWon, Game.boardIdx_setBoardIdx_self, Game.phase_setBoardIdx]
  refine ⟨?_, ?_, ?_, trivial⟩
  · rw [List.all_eq_true]
    constructor
    · intro ha p hp
      exact (is_empty_iff_not_kind p.2).1 (ha p hp)
    · intro ha p hp
      exact (is_empty_iff_not_kind p.2).2 (ha p hp)
  · cases hw : (Board.insertGet (g.boardIdx g.you) (x, y) Ship.Hit).1.all
        (fun e => Ship.is_empty e.2) <;> simp [hw]
  · cases hw : (Board.insertGet (g.boardIdx g.you) (x, y) Ship.Hit).1.all
        (fun e => Ship.is_empty e.2) <;> simp [hw]

/-- Witness for C3 amended at the state whose last intact ship cell is
struck. -/
theorem receive_win_iff_no_ship_cells_witness :
    gReceiverLast.phase = Phase.Playing
    ∧ my_turn gReceiverLast = false
    ∧ (GameFlow.receive gReceiverLast [Msg.Fire 1 0]).state.phase = gReceiverLast.phase :=
  ⟨rfl, by decide,
    (receive_win_iff_no_ship_cells gReceiverLast 1 0 [] rfl (by decide)).2.2.2⟩

/-! Claim C10: receive marks Hit unconditionally and reports prior kinds. -/

/-- C10: receive overwrites the fleet board at the aim with Hit no matter
what was there, and the DidHit answer it sends is true exactly when the
previous value at the aim was one of the five ship kinds; hence Miss is
never stored on the fleet board, a repeated shot reports false, and Hit can
appear at coordinates that never carried a ship. -/
theorem receive_marks_hit_reports_ship_kinds (g : Game) (x y : Nat)
    (rest : List Msg) (hph : g.phase = Phase.Playing) (ht : my_turn g = false)
    (hs : Board.sorted (g.boardIdx g.you) = true) :
    (GameFlow.receive g (Msg.Fire x y :: rest)).state.boardIdx g.you
      = Board.insert (g.boardIdx g.you) (x, y) Ship.Hit
    ∧ ((GameFlow.receive g (Msg.Fire x y :: rest)).sent.head? = some (Msg.DidHit true)
      ↔ ∃ s, Board.get (g.boardIdx g.you) (x, y) = some s ∧ s ∈ shipOrder) := by
  rw [receive_fire_eq g x y rest hph ht]
  unfold receiveCore
  simp only [Game.boardIdx_setBoardIdx_self, List.head?_cons]
  refine ⟨Board.insertGet_fst _ _ _, ?_⟩
  rw [Board.insertGet_snd _ _ _ hs]
  constructor
  · intro hh
    have : ((Board.get (g.boardIdx g.you) (x, y)).filter isShipKind).isSome = true := by
      have := congrArg (fun o => o.map (fun m : Msg => m = Msg.DidHit true)) hh
      simp at hh
      cases hb : ((Board.get (g.boardIdx g.you) (x, y)).filter isShipKind).isSome
      · rw [hb] at hh
        exact absurd hh (by simp)
      · rfl
    exact (filter_isShipKind_isSome _).1 this
  · intro hh
    have : ((Board.get (g.boardIdx g.you) (x, y)).filter isShipKind).isSome = true :=
      (filter_isShipKind_isSome _).2 hh
    rw [this]

/-- Witness for C10 at an intact Destroyer cell. -/
theorem receive_marks_hit_reports_ship_kinds_witness :
    gReceiver.phase = Phase.Playing
    ∧ my_turn gReceiver = false
    ∧ Board.sorted (gReceiver.boardIdx gReceiver.you) = true
    ∧ ((GameFlow.receive gReceiver [Msg.Fire 1 0]).state.boardIdx gReceiver.you
        = Board.insert (gReceiver.boardIdx gReceiver.you) (1, 0) Ship.Hit
      ∧ ((GameFlow.receive gReceiver [Msg.Fire 1 0]).sent.head? = some (Msg.DidHit true)
        ↔ ∃ s, Board.get (gReceiver.boardIdx gReceiver.you) (1, 0) = some s
            ∧ s ∈ shipOrder)) :=
  ⟨rfl, by decide, by decide,
    receive_marks_hit_reports_ship_kinds gReceiver 1 0 [] rfl (by decide) (by decide)⟩

/-! Claim C9: opponent-knowledge board marking after fire. -/

/-- C9 counterexample: a completed flow2 fire exchange whose peer answered
DidHit true leaves the opponent-knowledge board untouched: no Hit marker
appears at the target. -/
theorem fire_does_not_mark_opponent_board :
    (GameFlow.fire gPlayingClient (2, 3)
        [Msg.DidHit true, Msg.Sunk Ship.None, Msg.NotFinished]).result
      = GFResult.ok { hit := some Ship.Hit, sunk := none, won := false }
    ∧ Board.get ((GameFlow.fire gPlayingClient (2, 3)
        [Msg.DidHit true, Msg.Sunk Ship.None, Msg.NotFinished]).state.boardIdx
        (!gPlayingClient.you)) (2, 3) = none := by decide

/-- C9 amended: the threaded engine of flow.rs does mark the
opponent-knowledge board after each fire exchange: the target receives Hit
on DidHit true and Miss on DidHit false, every other cell of that board and
the whole fleet board are untouched, the turn toggles on NotFinished, and
ending the game with Finished writes the same marking. The flow2
GameFlow.fire, in contrast, does not update any board. -/
theorem game_loop_fire_marks_hit_or_miss (g : Game) (coords : Coord)
    (b : Bool) (sm : Ship) (rest : List Msg) (c : Coord) (hc : c ≠ coords) :
    ∃ g1 g2,
      gameLoopFireStep g coords (Msg.DidHit b :: Msg.Sunk sm :: Msg.NotFinished :: rest)
        = some (g1, rest, [Msg.Fire coords.1 coords.2], false)
      ∧ gameLoopFireStep g coords (Msg.DidHit b :: Msg.Sunk sm :: Msg.Finished :: rest)
        = some (g2, rest, [Msg.Fire coords.1 coords.2], true)
      ∧ Board.get (g1.boardIdx (!g.you)) coords = some (if b then Ship.Hit else Ship.Miss)
      ∧ Board.get (g1.boardIdx (!g.you)) c = Board.get (g.boardIdx (!g.you)) c
      ∧ g1.boardIdx g.you = g.boardIdx g.you
      ∧ g1.turn = !g.turn
      ∧ g2.boardIdx (!g.you) = g1.boardIdx (!g.you) := by
  have hne : (!g.you) ≠ g.you := by cases g.you <;> simp
  refine ⟨_, _, rfl, rfl, ?_, ?_, ?_, ?_, ?_⟩
  · rw [Game.boardIdx_turnUpdate, Game.boardIdx_setBoardIdx_self,
      Board.get_insert_self]
  · rw [Game.boardIdx_turnUpdate, Game.boardIdx_setBoardIdx_self,
      Board.get_insert_ne _ _ _ _ hc]
  · rw [Game.boardIdx_turnUpdate, Game.boardIdx_setBoardIdx_ne _ _ _ _ hne]
  · rw [Game.turn_turnUpdate, Game.turn_setBoardIdx]
  · exact (Game.boardIdx_turnUpdate _ _ _).symm

/-- Witness for C9 amended: firing at column 2 row 3 with a DidHit true
reply; the unaffected cell is the origin. -/
theorem game_loop_fire_marks_hit_or_miss_witness :
    ((0, 0) : Coord) ≠ ((2, 3) : Coord)
    ∧ ∃ g1 g2,
      gameLoopFireStep gPlayingClient (2, 3)
          [Msg.DidHit true, Msg.Sunk Ship.None, Msg.NotFinished, Msg.Hello 0]
        = some (g1, [Msg.Hello 0], [Msg.Fire 2 3], false)
      ∧ gameLoopFireStep gPlayingClient (2, 3)
          [Msg.DidHit true, Msg.Sunk Ship.None, Msg.Finished, Msg.Hello 0]
        = some (g2, [Msg.Hello 0], [Msg.Fire 2 3], true)
      ∧ Board.get (g1.boardIdx (!gPlayingClient.you)) (2, 3)
        = some (if true then Ship.Hit else Ship.Miss)
      ∧ Board.get (g1.boardIdx (!gPlayingClient.you)) (0, 0)
        = Board.get (gPlayingClient.boardIdx (!gPlayingClient.you)) (0, 0)
      ∧ g1.boardIdx gPlayingClient.you = gPlayingClient.boardIdx gPlayingClient.you
      ∧ g1.turn = !gPlayingClient.turn
      ∧ g2.boardIdx (!gPlayingClient.you) = g1.boardIdx (!gPlayingClient.you) :=
  ⟨by decide,
    game_loop_fire_marks_hit_or_miss gPlayingClient (2, 3) true Ship.None
      [Msg.Hello 0] (0, 0) (by decide)⟩

/-! Claim C4: the version handshake at engine construction. -/

/-- C4 counterexample: flow2 engine construction reads and writes nothing
at all — with a pending Hello from a peer running version 1, which the
version check of flow.rs rejects, GameFlow.new still produces a full game
state in phase Placing Carrier, consuming no message and sending none. -/
theorem new_skips_version_handshake :
    GameFlow.new true [Msg.Hello 1] = (gFresh, [Msg.Hello 1], [])
    ∧ handshakeCheck (Msg.Hello 1) = false
    ∧ localVersion ≠ 1 := by decide

/-- C4 amended: GameFlow.new of flow2.rs performs no version exchange: for
every serve flag and incoming stream it consumes nothing, sends nothing and
yields a state in phase Placing Carrier with you equal to serve. The
version comparison lives only in the threaded handshake of flow.rs, whose
check accepts exactly the reply Hello localVersion and aborts the session
by a failed assertion, not by a recoverable error value, on anything else. -/
theorem handshake_version_check_amended :
    (∀ serve : Bool, ∀ input : List Msg,
      (GameFlow.new serve input).2.1 = input
      ∧ (GameFlow.new serve input).2.2 = []
      ∧ (GameFlow.new serve input).1.phase = Phase.Placing Ship.Carrier
      ∧ (GameFlow.new serve input).1.you = serve)
    ∧ (∀ resp : Msg, handshakeCheck resp = true ↔ resp = Msg.Hello localVersion) := by
  constructor
  · intro serve input
    exact ⟨rfl, rfl, rfl, rfl⟩
  · intro resp
    rw [handshakeCheck, beq_iff_eq]
    exact ⟨fun h => h.symm, fun h => h.symm⟩
